import Mathlib

/-!
# Verification of the kdeclarative adapters

Shallow embedding of the three adapters of the repository:

* `src/qmlcontrols/kquickcontrols/private/translationcontext.cpp`
  (`TranslationContext::i18n` / `i18nc` / `i18np` / `i18ncp`),
* `src/qmlcontrols/kquickcontrols/private/keysequencehelper.cpp`
  (`KeySequenceHelper::isKeySequenceAvailable` and the two conflict checks),
* `src/kdeclarative/configpropertymap.cpp`
  (`ConfigPropertyMap` and its private loader / writer).

External library types that the code manipulates (`QString`, `KLocalizedString`,
`KCoreConfigSkeleton`, the global-shortcut registry, the modal dialogs) are
modelled explicitly; every function of the repository itself is translated
statement by statement from the C++ source.
-/

namespace KDeclarativeSpec

/-! ## QString model

A `QString` is either null (the default-constructed `QString()`) or holds
character data.  The translation functions distinguish null from non-null
parameters via `QString::isNull`, so the model keeps nullness explicit. -/

/-- A `QString`: `none` is the null string `QString()`, `some s` a string with data. -/
abbrev QStr := Option String

/-- Model of `QString::toInt` (base 10, C locale): an optional sign followed by
one or more decimal digits; anything else fails. -/
def qtoInt (s : String) : Option Int :=
  let digitsVal : List Char → Int :=
    fun ds => (ds.foldl (fun n c => 10 * n + (c.toNat - 48)) 0 : Nat)
  match s.toList with
  | [] => none
  | '-' :: ds => if ds ≠ [] ∧ ds.all Char.isDigit then some (-(digitsVal ds)) else none
  | '+' :: ds => if ds ≠ [] ∧ ds.all Char.isDigit then some (digitsVal ds) else none
  | ds => if ds.all Char.isDigit then some (digitsVal ds) else none

/-! ## KLocalizedString model

`translationcontext.cpp` builds a `KLocalizedString` with `ki18nd` /
`ki18ndc` / `ki18ndp` / `ki18ndcp`, feeds it arguments with `subs` (which
supplies the argument for the next positional placeholder, in call order)
and renders it with `toString`.  The model keeps the domain, optional
context, message text(s) and the ordered argument list, and renders with an
identity catalog: no translation lookup, plural form chosen by the first
numeric argument (`n = 1` picks the singular), `%i` replaced by the i-th
supplied argument. -/

/-- An argument supplied to a `KLocalizedString` by `subs`: either a number
(`subs(int)`) or a string (`subs(const QString &)`). -/
inductive Arg
  | num (n : Int)
  | str (s : String)
deriving DecidableEq, Repr

/-- The text an argument substitutes for its placeholder. -/
def Arg.text : Arg → String
  | .num n => ToString.toString n
  | .str s => s

/-- Model of `KLocalizedString`: domain, optional context, singular text,
optional plural text, and the arguments supplied so far (in `subs` order). -/
structure KLocalizedString where
  domain : String
  context : Option String
  singular : String
  plural : Option String
  args : List Arg
deriving DecidableEq, Repr

/-- `ki18nd(domain, msg)`. -/
def ki18nd (domain msg : String) : KLocalizedString :=
  ⟨domain, none, msg, none, []⟩

/-- `ki18ndc(domain, ctx, msg)`. -/
def ki18ndc (domain ctx msg : String) : KLocalizedString :=
  ⟨domain, some ctx, msg, none, []⟩

/-- `ki18ndp(domain, singular, plural)`. -/
def ki18ndp (domain sg pl : String) : KLocalizedString :=
  ⟨domain, none, sg, some pl, []⟩

/-- `ki18ndcp(domain, ctx, singular, plural)`. -/
def ki18ndcp (domain ctx sg pl : String) : KLocalizedString :=
  ⟨domain, some ctx, sg, some pl, []⟩

/-- `KLocalizedString::subs`: supplies the argument for the next positional
placeholder, i.e. appends to the argument list. -/
def KLocalizedString.subs (t : KLocalizedString) (a : Arg) : KLocalizedString :=
  { t with args := t.args ++ [a] }

/-- The first numeric argument, which drives plural-form selection. -/
def firstNumArg : List Arg → Option Int
  | [] => none
  | .num n :: _ => some n
  | .str _ :: rest => firstNumArg rest

/-- Placeholder substitution: `%i` (for `i` in `1`..`10`, maximal match for
`%10`) is replaced by the text of the i-th argument; a placeholder without a
matching argument, or a `%` not followed by such a digit, is kept verbatim. -/
def substChars (args : List Arg) : List Char → List Char
  | [] => []
  | '%' :: cs =>
    match cs with
    | '1' :: '0' :: rest =>
        (match args.get? 9 with
         | some a => a.text.toList
         | none => ['%', '1', '0']) ++ substChars args rest
    | c :: rest =>
        if c.isDigit ∧ c ≠ '0' then
          (match args.get? (c.toNat - 49) with
           | some a => a.text.toList
           | none => ['%', c]) ++ substChars args rest
        else
          '%' :: substChars args (c :: rest)
    | [] => ['%']
  | c :: cs => c :: substChars args cs

/-- Model of `KLocalizedString::toString`: choose the plural form by the first
numeric argument (if a plural is set), then substitute the placeholders. -/
def KLocalizedString.toString (t : KLocalizedString) : String :=
  let base :=
    match t.plural, firstNumArg t.args with
    | some pl, some n => if n = 1 then t.singular else pl
    | _, _ => t.singular
  String.mk (substChars t.args base.toList)

/-! ## TranslationContext

Translation of `translationcontext.cpp`.  Each `i18n*` method takes up to ten
`QString` parameters (defaulting to the null `QString()`), substitutes exactly
the non-null ones in argument order, and returns the rendered string.  A
missing required text logs a `qWarning` diagnostic and returns `QString()`;
the model returns the rendered text paired with a `Bool` that records whether
the diagnostic was logged. -/

/-- The `TranslationContext` object: only its `m_domain` member matters here. -/
structure TranslationContext where
  m_domain : String

/-- One `if (!param.isNull()) trMessage = trMessage.subs(param);` statement. -/
def subsIfSet (t : KLocalizedString) : QStr → KLocalizedString
  | none => t
  | some s => t.subs (Arg.str s)

/-- The chain of ten such statements, as a fold over the parameter list. -/
def subsAll (t : KLocalizedString) (ps : List QStr) : KLocalizedString :=
  ps.foldl subsIfSet t

/-- The special handling of the first parameter of `i18np` / `i18ncp`:
if it parses as an `int` it is substituted as a number, otherwise as a
string (lines 148-156 and 197-205 of `translationcontext.cpp`). -/
def subsPluralParam (t : KLocalizedString) : QStr → KLocalizedString
  | none => t
  | some s =>
    match qtoInt s with
    | some n => t.subs (Arg.num n)
    | none => t.subs (Arg.str s)

/-- `TranslationContext::i18n` (lines 53-94). -/
def TranslationContext.i18n (c : TranslationContext)
    (message p1 p2 p3 p4 p5 p6 p7 p8 p9 p10 : QStr) : String × Bool :=
  match message with
  | none => ("", true)
  | some msg =>
    let t := ki18nd c.m_domain msg
    let t := subsAll t [p1, p2, p3, p4, p5, p6, p7, p8, p9, p10]
    (t.toString, false)

/-- `TranslationContext::i18nc` (lines 96-137). -/
def TranslationContext.i18nc (c : TranslationContext)
    (context message p1 p2 p3 p4 p5 p6 p7 p8 p9 p10 : QStr) : String × Bool :=
  match context, message with
  | some ctx, some msg =>
    let t := ki18ndc c.m_domain ctx msg
    let t := subsAll t [p1, p2, p3, p4, p5, p6, p7, p8, p9, p10]
    (t.toString, false)
  | _, _ => ("", true)

/-- `TranslationContext::i18np` (lines 139-186). -/
def TranslationContext.i18np (c : TranslationContext)
    (singular plural p1 p2 p3 p4 p5 p6 p7 p8 p9 p10 : QStr) : String × Bool :=
  match singular, plural with
  | some sg, some pl =>
    let t := ki18ndp c.m_domain sg pl
    let t := subsPluralParam t p1
    let t := subsAll t [p2, p3, p4, p5, p6, p7, p8, p9, p10]
    (t.toString, false)
  | _, _ => ("", true)

/-- `TranslationContext::i18ncp` (lines 188-235). -/
def TranslationContext.i18ncp (c : TranslationContext)
    (context singular plural p1 p2 p3 p4 p5 p6 p7 p8 p9 p10 : QStr) : String × Bool :=
  match context, singular, plural with
  | some ctx, some sg, some pl =>
    let t := ki18ndcp c.m_domain ctx sg pl
    let t := subsPluralParam t p1
    let t := subsAll t [p2, p3, p4, p5, p6, p7, p8, p9, p10]
    (t.toString, false)
  | _, _, _ => ("", true)

/-! ## KeySequenceHelper

Translation of `keysequencehelper.cpp`, on the platform where the
global-shortcut check is compiled in (the `#elif !defined(Q_OS_DARWIN)`
branch, i.e. neither Windows nor macOS).  The environment — the standard
shortcut table (`KStandardShortcut::find`), the global shortcut registry
(`KGlobalAccel`) and the answers the user gives to the modal dialogs — is
passed in as an explicit `ShortcutEnv`.  Each check also produces the list
of the user-visible effects it performed (messages shown, prompts asked,
steals executed), so that "without any offer to steal" and "the steal is
performed immediately" are statable. -/

/-- A key sequence: an ordered list of key+modifier chords (each chord a code).
`QKeySequence::isEmpty` is emptiness of the list. -/
abbrev KeySeq := List Nat

/-- A registered global shortcut, as returned by `KGlobalAccel::globalShortcutsByKey`. -/
structure GlobalShortcutInfo where
  friendlyName : String
  contextFriendlyName : String
deriving DecidableEq, Repr

/-- A standard-shortcut identifier other than `KStandardShortcut::AccelNone`. -/
abbrev StandardShortcut := Nat

/-- The environment of a shortcut check: the two registries and the user's
modal answers.  `stdFind s = some ssc` models
`KStandardShortcut::find(s) == ssc != AccelNone`; `byKey`, `shadows` and
`shadowed` model the three `globalShortcutsByKey` match types. -/
structure ShortcutEnv where
  stdFind : KeySeq → Option StandardShortcut
  available : KeySeq → Bool
  byKey : KeySeq → List GlobalShortcutInfo
  shadows : KeySeq → List GlobalShortcutInfo
  shadowed : KeySeq → List GlobalShortcutInfo
  userAcceptsStealGlobal : Bool
  userAcceptsStealStandard : Bool

/-- The `KeySequenceHelper::ShortcutTypes` bitmask:
`StandardShortcuts` and `GlobalShortcuts` flags. -/
structure ShortcutTypes where
  standardShortcuts : Bool
  globalShortcuts : Bool
deriving DecidableEq, Repr

/-- A user-visible effect of a conflict check. -/
inductive ShortcutEffect
  /-- The "Global Shortcut Shadowing" error box. -/
  | shadowMessage
  /-- `KGlobalAccel::promptStealShortcutSystemwide`: the offer to steal. -/
  | stealGlobalPrompt
  /-- `KGlobalAccel::stealShortcutSystemwide`: the steal was performed. -/
  | stealGlobalPerformed
  /-- The "Conflict with Standard Application Shortcut" warning dialog. -/
  | stealStandardPrompt
deriving DecidableEq, Repr

/-- `KeySequenceHelperPrivate::stealStandardShortcut` (lines 193-207): shows
the modal warning; `Continue` (the user accepting the reassignment) makes it
return `true`. -/
def stealStandardShortcut (env : ShortcutEnv) : Bool × List ShortcutEffect :=
  if env.userAcceptsStealStandard then (true, [.stealStandardPrompt])
  else (false, [.stealStandardPrompt])

/-- `KeySequenceHelperPrivate::conflictWithStandardShortcuts` (lines 180-191). -/
def conflictWithStandardShortcuts (env : ShortcutEnv) (types : ShortcutTypes)
    (keySequence : KeySeq) : Bool × List ShortcutEffect :=
  if !types.standardShortcuts then (false, [])
  else
    match env.stdFind keySequence with
    | none => (false, [])
    | some _ =>
      let r := stealStandardShortcut env
      if !r.1 then (true, r.2) else (false, r.2)

/-- `KeySequenceHelperPrivate::conflictWithGlobalShortcuts` (lines 113-178),
non-Windows non-macOS branch. -/
def conflictWithGlobalShortcuts (env : ShortcutEnv) (types : ShortcutTypes)
    (keySequence : KeySeq) : Bool × List ShortcutEffect :=
  if !types.globalShortcuts then (false, [])
  else
    let others :=
      if !env.available keySequence then env.byKey keySequence else []
    let shadow :=
      if !env.available keySequence then env.shadows keySequence else []
    let shadowed :=
      if !env.available keySequence then env.shadowed keySequence else []
    if !shadow.isEmpty || !shadowed.isEmpty then
      (true, [.shadowMessage])
    else if !others.isEmpty && !env.userAcceptsStealGlobal then
      (true, [.stealGlobalPrompt])
    else
      -- the user approved stealing (or there was nothing to steal);
      -- KGlobalAccel::stealShortcutSystemwide is called unconditionally here
      (false,
        (if !others.isEmpty then [ShortcutEffect.stealGlobalPrompt] else [])
          ++ [ShortcutEffect.stealGlobalPerformed])

/-- `KeySequenceHelper::isKeySequenceAvailable` (lines 85-98). -/
def isKeySequenceAvailable (env : ShortcutEnv) (types : ShortcutTypes)
    (keySequence : KeySeq) : Bool × List ShortcutEffect :=
  if keySequence.isEmpty then (true, [])
  else
    let g :=
      if types.globalShortcuts then conflictWithGlobalShortcuts env types keySequence
      else (false, [])
    let s :=
      if types.standardShortcuts then conflictWithStandardShortcuts env types keySequence
      else (false, [])
    (!(g.1 || s.1), g.2 ++ s.2)

/-! ## ConfigPropertyMap

Translation of `configpropertymap.cpp`.  The external
`KCoreConfigSkeleton` is modelled explicitly (`Skeleton` below): a list of
configuration items — each with its key, in-memory value (`mProperty` /
`mReference`), loaded baseline (`mLoadedValue`), default value, immutable
flag and write flags — plus the persisted backing store.  The semantics of
`save` and `read` follow spec §6 and the source's own comment (lines
162-164): `save()` writes exactly the items whose in-memory value differs
from the loaded baseline and does not refresh the baseline; `read()` sets
both the in-memory value and the baseline from the store.

Values are modelled as `Nat`; the invalid `QVariant()` converts to the
default-constructed value `0` where the code stores one.

Qt's synchronous signal/slot dispatch is embedded directly: emitting a
signal runs the connected slot at once.  Since the `configChanged` handler
calls `loadConfig(EmitValueChanged)`, whose `valueChanged` emissions run
`writeConfigValue`, whose `save()` emits `configChanged` again, the
dispatcher `run` takes a fuel argument; `none` means either a crash (a null
`config` dereferenced, which the fuel never masks) or exhausted fuel.  At
runtime the re-entrancy guard cuts the recursion at depth four, so any fuel
of at least four is enough for every result proved below. -/

/-- Update-or-append on an association list: `QQmlPropertyMap::insert`
(which does not emit `valueChanged`) and a config-store entry write. -/
def assocSet : List (String × Nat) → String → Nat → List (String × Nat)
  | [], key, v => [(key, v)]
  | (k0, v0) :: rest, key, v =>
    if k0 = key then (key, v) :: rest else (k0, v0) :: assocSet rest key v

/-- Lookup on an association list. -/
def assocGet (l : List (String × Nat)) (key : String) : Option Nat :=
  (l.find? (fun p => p.1 = key)).map (·.2)

/-- A `KConfigSkeletonItem`. -/
structure SkelItem where
  key : String
  /-- the in-memory value (`mProperty` / `mReference`) -/
  prop : Nat
  /-- the baseline loaded from the store (`mLoadedValue`) -/
  loadedValue : Nat
  /-- the default value, read when the key is absent from the store -/
  deflt : Nat
  immutable : Bool
  /-- the write flags last set (`true` = `KConfigBase::Notify`) -/
  notifyFlag : Bool
deriving DecidableEq, Repr

/-- A `KCoreConfigSkeleton`: its item list and the persisted store. -/
structure Skeleton where
  items : List SkelItem
  stored : List (String × Nat)
deriving DecidableEq, Repr

/-- `KCoreConfigSkeleton::findItem`: the first item with the given key. -/
def Skeleton.findItem (sk : Skeleton) (key : String) : Option SkelItem :=
  sk.items.find? (fun it => it.key = key)

/-- `item->setProperty(v)` on the item `findItem` returned. -/
def setPropFirst : List SkelItem → String → Nat → List SkelItem
  | [], _, _ => []
  | it :: rest, key, v =>
    if it.key = key then { it with prop := v } :: rest
    else it :: setPropFirst rest key v

/-- `item->setWriteFlags(...)` on the item `findItem` returned. -/
def setWriteFlagsFirst : List SkelItem → String → Bool → List SkelItem
  | [], _, _ => []
  | it :: rest, key, fl =>
    if it.key = key then { it with notifyFlag := fl } :: rest
    else it :: setWriteFlagsFirst rest key fl

/-- The item writes performed by `KCoreConfigSkeleton::save()`: an item is
written to the store exactly when its in-memory value differs from its
loaded baseline; the baseline itself is not refreshed (the bridge's
explicit `read()` does that, per the comment at lines 162-164).  Returns
the updated store and the keys written, in item order. -/
def saveItems : List SkelItem → List (String × Nat) → List (String × Nat) × List String
  | [], store => (store, [])
  | it :: rest, store =>
    if it.prop ≠ it.loadedValue then
      let p := saveItems rest (assocSet store it.key it.prop)
      (p.1, it.key :: p.2)
    else saveItems rest store

/-- `KCoreConfigSkeleton::save()` (it also emits `configChanged`, which the
caller dispatches). -/
def Skeleton.save (sk : Skeleton) : Skeleton × List String :=
  let p := saveItems sk.items sk.stored
  ({ sk with stored := p.1 }, p.2)

/-- What `readConfig` does to one item: re-read its value from the store
(falling back to its default) and refresh the baseline. -/
def readItem (store : List (String × Nat)) (it : SkelItem) : SkelItem :=
  let v := (assocGet store it.key).getD it.deflt
  { it with prop := v, loadedValue := v }

/-- `KCoreConfigSkeleton::read()`: every item re-reads its value from the
store and the baseline is refreshed. -/
def Skeleton.read (sk : Skeleton) : Skeleton :=
  { sk with items := sk.items.map (readItem sk.stored) }

/-- `ConfigPropertyMapPrivate::LoadConfigOption`. -/
inductive LoadConfigOption
  | DontEmitValueChanged
  | EmitValueChanged
deriving DecidableEq, Repr

/-- The state of a `ConfigPropertyMap` together with its private part:
the (possibly null) `QPointer` to the skeleton, the `QQmlPropertyMap`
contents, and the three private flags. -/
structure ConfigPropertyMap where
  config : Option Skeleton
  map : List (String × Nat)
  updatingConfigValue : Bool
  autosave : Bool
  notify : Bool
deriving DecidableEq, Repr

/-- An externally observable event of the bridge. -/
inductive BridgeEv
  /-- the `ConfigPropertyMap::valueChanged(key, value)` signal -/
  | valueChanged (key : String) (value : Nat)
  /-- a config entry written to the backing store by `save()` — the
  persistence-level change notification for that key -/
  | entryWritten (key : String)
deriving DecidableEq, Repr

/-- The three entry points Qt's dispatch can invoke on the bridge:
`loadConfig`, the `valueChanged` slot (`writeConfigValue`), and the
`configChanged` lambda installed in the constructor. -/
inductive Act
  | loadConfig (opt : LoadConfigOption)
  | writeValue (key : String) (value : Nat)
  | configChanged
deriving DecidableEq, Repr

/-- One iteration of the `loadConfig` loop (lines 126-131): the live item for
snapshot key `k` is looked up, `q->insert(item->key(), item->property())` is
performed, and with `EmitValueChanged` the `valueChanged` signal is emitted —
delivered synchronously to the slot `recur` connected in the constructor.
The `none` fallback of the lookup is unreachable: no bridge operation removes
items, so every snapshot key stays present. -/
def loadStep (recur : ConfigPropertyMap → Act → Option (ConfigPropertyMap × List BridgeEv))
    (opt : LoadConfigOption) (acc : ConfigPropertyMap × List BridgeEv) (k : String) :
    Option (ConfigPropertyMap × List BridgeEv) :=
  match acc.1.config.bind (fun s => s.findItem k) with
  | none => some acc
  | some it =>
    let st1 := { acc.1 with map := assocSet acc.1.map it.key it.prop }
    match opt with
    | .DontEmitValueChanged => some (st1, acc.2)
    | .EmitValueChanged =>
      (recur st1 (Act.writeValue it.key it.prop)).map
        (fun r => (r.1, acc.2 ++ BridgeEv.valueChanged it.key it.prop :: r.2))

/-- Synchronous dispatch of one entry point, fuelled.  `none` is a crash
(a null `config` dereferenced) or exhausted fuel; at runtime the
re-entrancy guard bounds the dispatch depth by four. -/
def run : Nat → ConfigPropertyMap → Act → Option (ConfigPropertyMap × List BridgeEv)
  | 0, _, _ => none
  | fuel + 1, st, Act.configChanged =>
    -- the lambda connected to configChanged in the constructor (lines 61-65):
    -- reload only if the signal was not caused by our own update
    if st.updatingConfigValue then some (st, [])
    else run fuel st (Act.loadConfig .EmitValueChanged)
  | fuel + 1, st, Act.loadConfig opt =>
    -- ConfigPropertyMapPrivate::loadConfig (lines 119-132)
    match st.config with
    | none => some (st, [])
    | some sk =>
      -- the loop iterates the item list taken at entry; key and property are
      -- read from the live item at each step (the emit runs writeConfigValue
      -- synchronously, which may alter item properties via read())
      (sk.items.map SkelItem.key).foldlM
        (loadStep (fun st' a => run fuel st' a) opt) (st, [])
  | fuel + 1, st, Act.writeValue key value =>
    -- ConfigPropertyMapPrivate::writeConfigValue (lines 153-168); note the
    -- unguarded config.data()->findItem(key): with a null config this is a
    -- null-pointer dereference
    match st.config with
    | none => none
    | some sk =>
      match sk.findItem key with
      | none => some (st, [])
      | some _ =>
        let st1 := { st with updatingConfigValue := true }
        let items1 := setPropFirst (setWriteFlagsFirst sk.items key st.notify) key value
        let sk1 := { sk with items := items1 }
        if st1.autosave then
          let sv := Skeleton.save sk1
          -- save() emits configChanged, delivered synchronously while
          -- updatingConfigValue is still true
          (run fuel { st1 with config := some sv.1 } Act.configChanged).bind
            (fun r =>
              match r.1.config with
              | none => none   -- config.data()->read() on a null pointer
              | some sk2 =>
                some ({ r.1 with config := some sk2.read, updatingConfigValue := false },
                      sv.2.map BridgeEv.entryWritten ++ r.2))
        else
          some ({ st1 with config := some sk1, updatingConfigValue := false }, [])

/-- `ConfigPropertyMap::ConfigPropertyMap` (lines 54-70): the two
connections are installed (they are the `configChanged` and `writeValue`
branches of `run`) and the initial `loadConfig(DontEmitValueChanged)` is
performed on an empty property map.  `autosave` starts `true`, `notify`
and `updatingConfigValue` start `false`. -/
def construct (fuel : Nat) (config : Option Skeleton) :
    Option (ConfigPropertyMap × List BridgeEv) :=
  run fuel
    { config := config
      map := []
      updatingConfigValue := false
      autosave := true
      notify := false }
    (Act.loadConfig .DontEmitValueChanged)

/-- `ConfigPropertyMap::isImmutable` (lines 109-117).  The source reads
`d->config.data()->findItem(key)` without a null check, so with no
configuration object the call dereferences a null pointer: `none`. -/
def ConfigPropertyMap.isImmutable (st : ConfigPropertyMap) (key : String) : Option Bool :=
  match st.config with
  | none => none
  | some sk =>
    match sk.findItem key with
    | some item => some item.immutable
    | none => some false

/-- `ConfigPropertyMapPrivate::writeConfig` (lines 134-151), the save path
the destructor runs when autosave is on: every item gets the current write
flags and its value from the property map (`q->value(key)`; an absent key
yields the invalid `QVariant()`, converted to the default-constructed value
`0`), then with autosave the skeleton is saved under the re-entrancy guard.
This function does check `config` for null. -/
def writeConfigOp (fuel : Nat) (st : ConfigPropertyMap) :
    Option (ConfigPropertyMap × List BridgeEv) :=
  match st.config with
  | none => some (st, [])
  | some sk =>
    let items1 := sk.items.map (fun it =>
      { it with notifyFlag := st.notify, prop := (assocGet st.map it.key).getD 0 })
    let sk1 := { sk with items := items1 }
    if st.autosave then
      let sv := Skeleton.save sk1
      (run fuel { st with config := some sv.1, updatingConfigValue := true }
          Act.configChanged).map
        (fun r => ({ r.1 with updatingConfigValue := false },
                   sv.2.map BridgeEv.entryWritten ++ r.2))
    else
      some ({ st with config := some sk1 }, [])

/-! ## Derived notions used by the statements -/

/-- The non-null parameters, in order, as string arguments: what the chain of
ten `if (!param.isNull()) … subs(param)` statements supplies. -/
def strArgsOf (ps : List QStr) : List Arg :=
  (ps.filterMap id).map Arg.str

/-- The argument the first parameter of `i18np` / `i18ncp` contributes:
nothing when null, a number when it parses as an `int`, else the literal
string. -/
def pluralArgOf : QStr → List Arg
  | none => []
  | some s =>
    match qtoInt s with
    | some n => [Arg.num n]
    | none => [Arg.str s]

/-- The keys of a skeleton's items, in order. -/
def Skeleton.keyList (sk : Skeleton) : List String :=
  sk.items.map SkelItem.key

/-- The property map produced by the `loadConfig` loop without emissions:
each listed key's current item value inserted in order. -/
def insertItems (sk : Skeleton) (m : List (String × Nat)) : List String → List (String × Nat)
  | [] => m
  | k :: ks =>
    match sk.findItem k with
    | none => insertItems sk m ks
    | some it => insertItems sk (assocSet m it.key it.prop) ks

/-- The invariant of spec §3: whenever a configuration object is present, the
property map's key set equals the configuration's item key set. -/
def keySetEq (st : ConfigPropertyMap) : Prop :=
  ∀ sk, st.config = some sk →
    ∀ k, ((assocGet st.map k).isSome = true ↔ (sk.findItem k).isSome = true)

/-- The loaded baseline agrees with the backing store (the state every
`read()` establishes for keys present in the store). -/
def BaselineSynced (sk : Skeleton) : Prop :=
  ∀ it ∈ sk.items, assocGet sk.stored it.key = some it.loadedValue

/-- Item value, loaded baseline and stored value all agree: the state after
a `save()` followed by a `read()`. -/
def Synced (sk : Skeleton) : Prop :=
  ∀ it ∈ sk.items, it.prop = it.loadedValue ∧ assocGet sk.stored it.key = some it.prop

/-- The property map's keys are all item keys (one half of the invariant). -/
def mapSub (st : ConfigPropertyMap) : Prop :=
  ∀ sk, st.config = some sk →
    ∀ k, (assocGet st.map k).isSome = true → (sk.findItem k).isSome = true

/-- What a single dispatched entry point preserves: the configuration's key
list, presence of every property-map key, and `mapSub`. -/
def stepInv (a b : ConfigPropertyMap) : Prop :=
  Option.map Skeleton.keyList b.config = Option.map Skeleton.keyList a.config ∧
  (∀ k, (assocGet a.map k).isSome = true → (assocGet b.map k).isSome = true) ∧
  (mapSub a → mapSub b)

/-- Recognize the persistence-level write notification events. -/
def isEntryWritten : BridgeEv → Bool
  | .entryWritten _ => true
  | .valueChanged _ _ => false

/-- The skeleton after `writeConfigValue`'s `setWriteFlags` and `setProperty`
calls on the item found for `key`. -/
def writeItems (sk : Skeleton) (key : String) (fl : Bool) (v : Nat) : Skeleton :=
  { sk with items := setPropFirst (setWriteFlagsFirst sk.items key fl) key v }

/-- The skeleton after `writeConfig`'s per-item `setWriteFlags` and
`setProperty(q->value(key))` loop. -/
def wcItems (st : ConfigPropertyMap) (sk : Skeleton) : Skeleton :=
  { sk with items := sk.items.map (fun it =>
      { it with notifyFlag := st.notify, prop := (assocGet st.map it.key).getD 0 }) }

/-! ## Concrete sample data for the witnesses -/

/-- A two-item skeleton whose store, baselines and values agree. -/
def sampleSkel : Skeleton :=
  { items :=
      [ { key := "alpha", prop := 1, loadedValue := 1, deflt := 0,
          immutable := false, notifyFlag := false }
      , { key := "beta", prop := 2, loadedValue := 2, deflt := 0,
          immutable := true, notifyFlag := false } ]
    stored := [("alpha", 1), ("beta", 2)] }

/-- The bridge state right after `construct` on `sampleSkel`. -/
def sampleState : ConfigPropertyMap :=
  { config := some sampleSkel
    map := [("alpha", 1), ("beta", 2)]
    updatingConfigValue := false
    autosave := true
    notify := false }

/-- A bridge state whose configuration object is gone (null `QPointer`). -/
def nullConfigState : ConfigPropertyMap :=
  { config := none
    map := [("alpha", 1)]
    updatingConfigValue := false
    autosave := true
    notify := false }

/-- A shortcut environment: `[1]` matches standard shortcut `7`; `[2]` collides
directly with one global shortcut; `[3]` shadows a global shortcut; the user
declines every prompt. -/
def sampleShortcutEnv : ShortcutEnv :=
  { stdFind := fun s => if s = [1] then some 7 else none
    available := fun s => !(s = [2] || s = [3])
    byKey := fun s => if s = [2] then [⟨"copy", "app"⟩] else []
    shadows := fun s => if s = [3] then [⟨"launch", "desk"⟩] else []
    shadowed := fun _ => []
    userAcceptsStealGlobal := false
    userAcceptsStealStandard := false }

/-- The same environment with a user who accepts every prompt. -/
def acceptingShortcutEnv : ShortcutEnv :=
  { sampleShortcutEnv with
    userAcceptsStealGlobal := true
    userAcceptsStealStandard := true }

/-- Both check types active (the constructor's default). -/
def bothTypes : ShortcutTypes := ⟨true, true⟩

/-! ## Supporting lemmas -/

theorem isEmpty_false_of_ne_nil {α : Type} {l : List α} (h : l ≠ []) : l.isEmpty = false := by
  cases l with
  | nil => exact absurd rfl h
  | cons a l => rfl

theorem subsAll_eq (t : KLocalizedString) (ps : List QStr) :
    subsAll t ps = { t with args := t.args ++ strArgsOf ps } := by
  induction ps generalizing t with
  | nil => simp [subsAll, strArgsOf]
  | cons p ps ih =>
    cases p with
    | none =>
      have h : subsAll t (none :: ps) = subsAll t ps := rfl
      rw [h, ih]
      simp [strArgsOf]
    | some s =>
      have h : subsAll t (some s :: ps) = subsAll (t.subs (Arg.str s)) ps := rfl
      rw [h, ih]
      simp [strArgsOf, KLocalizedString.subs]

theorem subsPluralParam_eq (t : KLocalizedString) (p : QStr) :
    subsPluralParam t p = { t with args := t.args ++ pluralArgOf p } := by
  cases p with
  | none => simp [subsPluralParam, pluralArgOf]
  | some s =>
    cases h : qtoInt s <;>
      simp [subsPluralParam, pluralArgOf, h, KLocalizedString.subs]

theorem firstNumArg_strArgsOf (ps : List QStr) : firstNumArg (strArgsOf ps) = none := by
  induction ps with
  | nil => rfl
  | cons p ps ih =>
    cases p with
    | none => exact ih
    | some s =>
      have h : strArgsOf (some s :: ps) = Arg.str s :: strArgsOf ps := rfl
      rw [h]
      exact ih

/-! ## Claim theorems: shortcut checking -/

/-- C5: for every state of the `checkAgainstShortcutTypes` bitmask,
`isKeySequenceAvailable` applied to the empty key sequence reports `true`
(no conflict) and shows no dialog, for every registry content and every
user answer — neither registry is consulted. -/
theorem isKeySequenceAvailable_empty (env : ShortcutEnv) (types : ShortcutTypes) :
    isKeySequenceAvailable env types [] = (true, []) := rfl

/-- C3: when standard-shortcut checking is active, a non-empty sequence that
matches a standard shortcut is reported unavailable if the user declines the
reassignment prompt, and as not conflicting with standard shortcuts if the
user approves. -/
theorem standardShortcut_decision (env : ShortcutEnv) (types : ShortcutTypes)
    (seq : KeySeq) (ssc : StandardShortcut)
    (hne : seq ≠ []) (hstd : types.standardShortcuts = true)
    (hfind : env.stdFind seq = some ssc) :
    (env.userAcceptsStealStandard = false →
        (isKeySequenceAvailable env types seq).1 = false) ∧
    (env.userAcceptsStealStandard = true →
        (conflictWithStandardShortcuts env types seq).1 = false) := by
  constructor
  · intro hdecl
    simp [isKeySequenceAvailable, isEmpty_false_of_ne_nil hne,
      conflictWithStandardShortcuts, hstd, hfind, stealStandardShortcut, hdecl]
  · intro hacc
    simp [conflictWithStandardShortcuts, hstd, hfind, stealStandardShortcut, hacc]

/-- Witness for C3 at `seq = [1]` in `sampleShortcutEnv` (declining user) and
`acceptingShortcutEnv` (accepting user). -/
theorem standardShortcut_decision_witness :
    (isKeySequenceAvailable sampleShortcutEnv bothTypes [1]).1 = false ∧
    (conflictWithStandardShortcuts acceptingShortcutEnv bothTypes [1]).1 = false :=
  ⟨(standardShortcut_decision sampleShortcutEnv bothTypes [1] 7
      (by decide) rfl (by decide)).1 rfl,
   (standardShortcut_decision acceptingShortcutEnv bothTypes [1] 7
      (by decide) rfl (by decide)).2 rfl⟩

/-- C4: with the global check active and the sequence not available in the
global registry, the check distinguishes: any (one-way or two-way) shadowing
shows the shadowing message and reports a conflict with no offer to steal;
a direct collision alone offers to steal — approval performs the steal
immediately and reports no conflict, refusal reports a conflict. -/
theorem globalShortcut_threeCases (env : ShortcutEnv) (types : ShortcutTypes) (seq : KeySeq)
    (hg : types.globalShortcuts = true) (hav : env.available seq = false) :
    ((env.shadows seq ≠ [] ∨ env.shadowed seq ≠ []) →
        conflictWithGlobalShortcuts env types seq = (true, [.shadowMessage])) ∧
    (env.shadows seq = [] → env.shadowed seq = [] → env.byKey seq ≠ [] →
        (env.userAcceptsStealGlobal = true →
            conflictWithGlobalShortcuts env types seq =
              (false, [.stealGlobalPrompt, .stealGlobalPerformed])) ∧
        (env.userAcceptsStealGlobal = false →
            conflictWithGlobalShortcuts env types seq = (true, [.stealGlobalPrompt]))) := by
  constructor
  · intro hsh
    rcases hsh with h | h <;>
      simp [conflictWithGlobalShortcuts, hg, hav, isEmpty_false_of_ne_nil h]
  · intro h1 h2 h3
    constructor <;> intro hu <;>
      simp [conflictWithGlobalShortcuts, hg, hav, h1, h2, hu,
        isEmpty_false_of_ne_nil h3]

/-- Witness for C4: shadowing at `[3]`, direct collision at `[2]` with an
accepting and with a declining user. -/
theorem globalShortcut_threeCases_witness :
    conflictWithGlobalShortcuts sampleShortcutEnv bothTypes [3] = (true, [.shadowMessage]) ∧
    conflictWithGlobalShortcuts acceptingShortcutEnv bothTypes [2] =
      (false, [.stealGlobalPrompt, .stealGlobalPerformed]) ∧
    conflictWithGlobalShortcuts sampleShortcutEnv bothTypes [2] =
      (true, [.stealGlobalPrompt]) :=
  ⟨(globalShortcut_threeCases sampleShortcutEnv bothTypes [3] rfl (by decide)).1
      (Or.inl (by decide)),
   ((globalShortcut_threeCases acceptingShortcutEnv bothTypes [2] rfl (by decide)).2
      (by decide) (by decide) (by decide)).1 rfl,
   ((globalShortcut_threeCases sampleShortcutEnv bothTypes [2] rfl (by decide)).2
      (by decide) (by decide) (by decide)).2 rfl⟩

/-! ## Claim theorems: translation -/

/-- C7: a translation call missing a required text logs a diagnostic and
returns the empty string: `i18n` requires the message, `i18nc` context and
message, `i18np` singular and plural, `i18ncp` context, singular and plural. -/
theorem translation_missing_required (c : TranslationContext)
    (a b p1 p2 p3 p4 p5 p6 p7 p8 p9 p10 : QStr) :
    c.i18n none p1 p2 p3 p4 p5 p6 p7 p8 p9 p10 = ("", true) ∧
    c.i18nc none a p1 p2 p3 p4 p5 p6 p7 p8 p9 p10 = ("", true) ∧
    c.i18nc a none p1 p2 p3 p4 p5 p6 p7 p8 p9 p10 = ("", true) ∧
    c.i18np none a p1 p2 p3 p4 p5 p6 p7 p8 p9 p10 = ("", true) ∧
    c.i18np a none p1 p2 p3 p4 p5 p6 p7 p8 p9 p10 = ("", true) ∧
    c.i18ncp none a b p1 p2 p3 p4 p5 p6 p7 p8 p9 p10 = ("", true) ∧
    c.i18ncp a none b p1 p2 p3 p4 p5 p6 p7 p8 p9 p10 = ("", true) ∧
    c.i18ncp a b none p1 p2 p3 p4 p5 p6 p7 p8 p9 p10 = ("", true) := by
  refine ⟨?_, ?_, ?_, ?_, ?_, ?_, ?_, ?_⟩ <;>
    first
      | rfl
      | (cases a <;> rfl)
      | (cases a <;> cases b <;> rfl)

/-- C10: in every translation call — `i18n`, `i18nc`, `i18np` and `i18ncp` —
each of the ten parameters is tested for nullness independently and only
non-null parameters are substituted, in argument order: the argument list is
exactly the non-null parameters in order, so a null parameter does not
reserve a position and a later non-null parameter fills the earlier
placeholder (concrete instance: `param1` null, `param2 = "a"`: `"a"` fills
`%1` and `%2` stays unfilled). -/
theorem translation_null_params_shift (c : TranslationContext) (ctx msg sg pl : String)
    (p1 p2 p3 p4 p5 p6 p7 p8 p9 p10 : QStr) :
    c.i18n (some msg) p1 p2 p3 p4 p5 p6 p7 p8 p9 p10 =
      (KLocalizedString.toString
        ⟨c.m_domain, none, msg, none,
          strArgsOf [p1, p2, p3, p4, p5, p6, p7, p8, p9, p10]⟩, false) ∧
    c.i18nc (some ctx) (some msg) p1 p2 p3 p4 p5 p6 p7 p8 p9 p10 =
      (KLocalizedString.toString
        ⟨c.m_domain, some ctx, msg, none,
          strArgsOf [p1, p2, p3, p4, p5, p6, p7, p8, p9, p10]⟩, false) ∧
    c.i18np (some sg) (some pl) p1 p2 p3 p4 p5 p6 p7 p8 p9 p10 =
      (KLocalizedString.toString
        ⟨c.m_domain, none, sg, some pl,
          pluralArgOf p1 ++ strArgsOf [p2, p3, p4, p5, p6, p7, p8, p9, p10]⟩, false) ∧
    c.i18ncp (some ctx) (some sg) (some pl) p1 p2 p3 p4 p5 p6 p7 p8 p9 p10 =
      (KLocalizedString.toString
        ⟨c.m_domain, some ctx, sg, some pl,
          pluralArgOf p1 ++ strArgsOf [p2, p3, p4, p5, p6, p7, p8, p9, p10]⟩, false) ∧
    (⟨"d"⟩ : TranslationContext).i18n (some "%1;%2") none (some "a")
        none none none none none none none none = ("a;%2", false) := by
  refine ⟨?_, ?_, ?_, ?_, ?_⟩
  · show (KLocalizedString.toString (subsAll (ki18nd c.m_domain msg)
      [p1, p2, p3, p4, p5, p6, p7, p8, p9, p10]), false) = _
    rw [subsAll_eq]
    rfl
  · show (KLocalizedString.toString (subsAll (ki18ndc c.m_domain ctx msg)
      [p1, p2, p3, p4, p5, p6, p7, p8, p9, p10]), false) = _
    rw [subsAll_eq]
    rfl
  · show (KLocalizedString.toString (subsAll (subsPluralParam (ki18ndp c.m_domain sg pl) p1)
      [p2, p3, p4, p5, p6, p7, p8, p9, p10]), false) = _
    rw [subsPluralParam_eq, subsAll_eq]
    rfl
  · show (KLocalizedString.toString
      (subsAll (subsPluralParam (ki18ndcp c.m_domain ctx sg pl) p1)
        [p2, p3, p4, p5, p6, p7, p8, p9, p10]), false) = _
    rw [subsPluralParam_eq, subsAll_eq]
    rfl
  · rfl

/-- C8: in `i18np` and `i18ncp` a non-null first parameter that parses as an
integer is substituted as a number and selects the singular (`n = 1`) or
plural form; one that does not parse is substituted literally as a string
(leaving the base text at the singular, since no number was supplied). -/
theorem plural_first_param (c : TranslationContext) (ctx sg pl p1 : String)
    (p2 p3 p4 p5 p6 p7 p8 p9 p10 : QStr) :
    (∀ n : Int, qtoInt p1 = some n →
        c.i18np (some sg) (some pl) (some p1) p2 p3 p4 p5 p6 p7 p8 p9 p10 =
          (String.mk (substChars
              (Arg.num n :: strArgsOf [p2, p3, p4, p5, p6, p7, p8, p9, p10])
              ((if n = 1 then sg else pl).toList)), false) ∧
        c.i18ncp (some ctx) (some sg) (some pl) (some p1) p2 p3 p4 p5 p6 p7 p8 p9 p10 =
          (String.mk (substChars
              (Arg.num n :: strArgsOf [p2, p3, p4, p5, p6, p7, p8, p9, p10])
              ((if n = 1 then sg else pl).toList)), false)) ∧
    (qtoInt p1 = none →
        c.i18np (some sg) (some pl) (some p1) p2 p3 p4 p5 p6 p7 p8 p9 p10 =
          (String.mk (substChars
              (Arg.str p1 :: strArgsOf [p2, p3, p4, p5, p6, p7, p8, p9, p10])
              sg.toList), false) ∧
        c.i18ncp (some ctx) (some sg) (some pl) (some p1) p2 p3 p4 p5 p6 p7 p8 p9 p10 =
          (String.mk (substChars
              (Arg.str p1 :: strArgsOf [p2, p3, p4, p5, p6, p7, p8, p9, p10])
              sg.toList), false)) := by
  constructor
  · intro n hn
    constructor <;>
      · simp only [TranslationContext.i18np, TranslationContext.i18ncp,
          subsPluralParam_eq, subsAll_eq, ki18ndp, ki18ndcp, pluralArgOf, hn]
        simp [KLocalizedString.toString, firstNumArg]
  · intro hn
    constructor <;>
      · simp only [TranslationContext.i18np, TranslationContext.i18ncp,
          subsPluralParam_eq, subsAll_eq, ki18ndp, ki18ndcp, pluralArgOf, hn]
        simp [KLocalizedString.toString, firstNumArg, firstNumArg_strArgsOf]

/-- Witness for C8: `"2"` parses and picks the plural, `"x"` does not parse
and is substituted literally. -/
theorem plural_first_param_witness :
    qtoInt "2" = some 2 ∧ qtoInt "x" = none ∧
    (⟨"d"⟩ : TranslationContext).i18np (some "%1 file") (some "%1 files") (some "2")
        none none none none none none none none none =
      (String.mk (substChars [Arg.num 2] ("%1 files").toList), false) ∧
    (⟨"d"⟩ : TranslationContext).i18np (some "%1 file") (some "%1 files") (some "x")
        none none none none none none none none none =
      (String.mk (substChars [Arg.str "x"] ("%1 file").toList), false) :=
  ⟨by decide, by decide,
   by
     have h := ((plural_first_param ⟨"d"⟩ "c" "%1 file" "%1 files" "2"
        none none none none none none none none none).1 2 (by decide)).1
     simpa using h,
   by
     have h := ((plural_first_param ⟨"d"⟩ "c" "%1 file" "%1 files" "x"
        none none none none none none none none none).2 (by decide)).1
     simpa using h⟩

/-! ## Supporting lemmas: association lists and skeleton items -/

theorem assocGet_nil (k : String) : assocGet [] k = none := rfl

theorem assocGet_cons (p : String × Nat) (m : List (String × Nat)) (k : String) :
    assocGet (p :: m) k = if p.1 = k then some p.2 else assocGet m k := by
  by_cases h : p.1 = k <;> simp [assocGet, List.find?_cons, h]

theorem assocGet_assocSet_self (m : List (String × Nat)) (k : String) (v : Nat) :
    assocGet (assocSet m k v) k = some v := by
  induction m with
  | nil => simp [assocSet, assocGet_cons]
  | cons p m ih =>
    obtain ⟨k0, v0⟩ := p
    by_cases h : k0 = k
    · simp [assocSet, h, assocGet_cons]
    · simp [assocSet, h, assocGet_cons, ih]

theorem assocGet_assocSet_ne (m : List (String × Nat)) (k k' : String) (v : Nat)
    (h : k' ≠ k) :
    assocGet (assocSet m k v) k' = assocGet m k' := by
  have h' : k ≠ k' := Ne.symm h
  induction m with
  | nil => simp [assocSet, assocGet_cons, assocGet_nil, h']
  | cons p m ih =>
    obtain ⟨k0, v0⟩ := p
    by_cases h0 : k0 = k
    · subst h0
      simp [assocSet, assocGet_cons, h']
    · simp [assocSet, h0, assocGet_cons, ih]

theorem isSome_assocGet_assocSet (m : List (String × Nat)) (k : String) (v : Nat)
    (k' : String) (h : (assocGet m k').isSome = true) :
    (assocGet (assocSet m k v) k').isSome = true := by
  by_cases hk : k' = k
  · subst hk; simp [assocGet_assocSet_self]
  · rw [assocGet_assocSet_ne m k k' v hk]; exact h

theorem of_isSome_assocGet_assocSet (m : List (String × Nat)) (k : String) (v : Nat)
    (k' : String) (h : (assocGet (assocSet m k v) k').isSome = true) :
    k' = k ∨ (assocGet m k').isSome = true := by
  by_cases hk : k' = k
  · exact Or.inl hk
  · right; rwa [assocGet_assocSet_ne m k k' v hk] at h

theorem setPropFirst_keys (l : List SkelItem) (k : String) (v : Nat) :
    (setPropFirst l k v).map SkelItem.key = l.map SkelItem.key := by
  induction l with
  | nil => rfl
  | cons it l ih => by_cases h : it.key = k <;> simp [setPropFirst, h, ih]

theorem setWriteFlagsFirst_keys (l : List SkelItem) (k : String) (fl : Bool) :
    (setWriteFlagsFirst l k fl).map SkelItem.key = l.map SkelItem.key := by
  induction l with
  | nil => rfl
  | cons it l ih => by_cases h : it.key = k <;> simp [setWriteFlagsFirst, h, ih]

theorem save_items (sk : Skeleton) : (Skeleton.save sk).1.items = sk.items := rfl

theorem read_stored (sk : Skeleton) : (Skeleton.read sk).stored = sk.stored := rfl

theorem read_keyList (sk : Skeleton) : (Skeleton.read sk).keyList = sk.keyList := by
  simp [Skeleton.read, Skeleton.keyList, List.map_map, Function.comp, readItem]

theorem findItem_key (sk : Skeleton) (k : String) (it : SkelItem)
    (h : sk.findItem k = some it) : it.key = k := by
  have h2 := List.find?_some h
  simpa using h2

theorem findItem_isSome_iff (sk : Skeleton) (k : String) :
    (sk.findItem k).isSome = true ↔ k ∈ sk.keyList := by
  rw [Skeleton.findItem, List.find?_isSome]
  simp [Skeleton.keyList, List.mem_map, eq_comm]

theorem findItem_isSome_congr (a b : Skeleton) (h : a.keyList = b.keyList) (k : String) :
    (a.findItem k).isSome = (b.findItem k).isSome := by
  by_cases hk : k ∈ b.keyList
  · rw [(findItem_isSome_iff a k).mpr (h ▸ hk), (findItem_isSome_iff b k).mpr hk]
  · have ha : ¬ k ∈ a.keyList := h ▸ hk
    have h1 : (a.findItem k).isSome ≠ true :=
      fun hh => ha ((findItem_isSome_iff a k).mp hh)
    have h2 : (b.findItem k).isSome ≠ true :=
      fun hh => hk ((findItem_isSome_iff b k).mp hh)
    cases hA : (a.findItem k).isSome
    · cases hB : (b.findItem k).isSome
      · rfl
      · exact absurd hB h2
    · exact absurd hA h1

theorem assocGet_insertItems_notmem (sk : Skeleton) (k : String) :
    ∀ (keys : List String) (m : List (String × Nat)), k ∉ keys →
      assocGet (insertItems sk m keys) k = assocGet m k := by
  intro keys
  induction keys with
  | nil => intro m _; rfl
  | cons k' ks ih =>
    intro m hk
    have hne : k ≠ k' := fun h => hk (h ▸ List.mem_cons_self k' ks)
    have hks : k ∉ ks := fun h => hk (List.mem_cons_of_mem _ h)
    cases hf : sk.findItem k' with
    | none =>
      simp only [insertItems, hf]
      exact ih m hks
    | some it =>
      simp only [insertItems, hf]
      rw [ih _ hks]
      rw [findItem_key sk k' it hf]
      exact assocGet_assocSet_ne m k' k it.prop hne

theorem assocGet_insertItems_mem (sk : Skeleton) (k : String) (it : SkelItem)
    (hit : sk.findItem k = some it) :
    ∀ (keys : List String) (m : List (String × Nat)), keys.Nodup → k ∈ keys →
      assocGet (insertItems sk m keys) k = some it.prop := by
  intro keys
  induction keys with
  | nil => intro m _ hk; exact absurd hk (List.not_mem_nil k)
  | cons k' ks ih =>
    intro m hnd hk
    rcases List.mem_cons.mp hk with h | h
    · subst h
      simp only [insertItems, hit]
      have hknotks : k ∉ ks := (List.nodup_cons.mp hnd).1
      rw [assocGet_insertItems_notmem sk k ks _ hknotks]
      rw [findItem_key sk k it hit]
      exact assocGet_assocSet_self m k it.prop
    · have hnd' := (List.nodup_cons.mp hnd).2
      cases hf : sk.findItem k' with
      | none =>
        simp only [insertItems, hf]
        exact ih m hnd' h
      | some it' =>
        simp only [insertItems, hf]
        exact ih _ hnd' h

theorem foldlM_loadStep_dontEmit
    (r : ConfigPropertyMap → Act → Option (ConfigPropertyMap × List BridgeEv))
    (sk : Skeleton) :
    ∀ (keys : List String) (st : ConfigPropertyMap) (evs : List BridgeEv),
      st.config = some sk →
      List.foldlM (loadStep r .DontEmitValueChanged) (st, evs) keys =
        some ({ st with map := insertItems sk st.map keys }, evs) := by
  intro keys
  induction keys with
  | nil =>
    intro st evs hc
    simp [insertItems]
  | cons k ks ih =>
    intro st evs hc
    rw [List.foldlM_cons]
    cases hf : sk.findItem k with
    | none =>
      have hstep : loadStep r .DontEmitValueChanged (st, evs) k = some (st, evs) := by
        simp [loadStep, hc, hf]
      rw [hstep]
      show List.foldlM (loadStep r .DontEmitValueChanged) (st, evs) ks = _
      rw [ih st evs hc]
      simp only [insertItems, hf]
    | some it =>
      have hstep : loadStep r .DontEmitValueChanged (st, evs) k =
          some ({ st with map := assocSet st.map it.key it.prop }, evs) := by
        simp [loadStep, hc, hf]
      rw [hstep]
      show List.foldlM (loadStep r .DontEmitValueChanged)
        ({ st with map := assocSet st.map it.key it.prop }, evs) ks = _
      rw [ih { st with map := assocSet st.map it.key it.prop } evs hc]
      simp only [insertItems, hf]

/-! ## Claim theorems: the configuration bridge, initial load -/

/-- C1: constructed on a configuration object (with its usual pairwise
distinct item keys), the bridge's property map holds exactly the keys of the
configuration's items, each mapped to that item's value at construction
time, and the construction emits no `valueChanged` signal (and no other
event) during this initial load. -/
theorem construct_initial_load (sk : Skeleton) (fuel : Nat)
    (hnd : sk.keyList.Nodup) :
    ∃ st', construct (fuel + 1) (some sk) = some (st', []) ∧
      ∀ k, assocGet st'.map k = (sk.findItem k).map SkelItem.prop := by
  refine ⟨{ config := some sk, map := insertItems sk [] sk.keyList,
            updatingConfigValue := false, autosave := true, notify := false }, ?_, ?_⟩
  · show run (fuel + 1) _ (Act.loadConfig .DontEmitValueChanged) = _
    rw [run]
    exact foldlM_loadStep_dontEmit _ sk sk.keyList _ [] rfl
  · intro k
    cases hf : sk.findItem k with
    | none =>
      have hmem : k ∉ sk.keyList := fun hmem => by
        have h2 := (findItem_isSome_iff sk k).mpr hmem
        rw [hf] at h2
        exact Bool.false_ne_true h2
      rw [assocGet_insertItems_notmem sk k sk.keyList [] hmem]
      rfl
    | some it =>
      have hmem : k ∈ sk.keyList := (findItem_isSome_iff sk k).mp (by rw [hf]; rfl)
      rw [assocGet_insertItems_mem sk k it hf sk.keyList [] hnd hmem]
      rfl

/-- Witness for C1 on the concrete two-item `sampleSkel`. -/
theorem construct_initial_load_witness :
    ∃ st', construct 1 (some sampleSkel) = some (st', []) ∧
      ∀ k, assocGet st'.map k = (sampleSkel.findItem k).map SkelItem.prop :=
  construct_initial_load sampleSkel 0 (by decide)

/-! ## Supporting lemmas: what every dispatched entry point preserves -/

theorem stepInv_refl (a : ConfigPropertyMap) : stepInv a a :=
  ⟨rfl, fun _ h => h, id⟩

theorem stepInv_trans {a b c : ConfigPropertyMap} (h1 : stepInv a b) (h2 : stepInv b c) :
    stepInv a c :=
  ⟨h2.1.trans h1.1, fun k hk => h2.2.1 k (h1.2.1 k hk), fun hs => h2.2.2 (h1.2.2 hs)⟩

theorem stepInv_of_same {a b : ConfigPropertyMap}
    (hm : b.map = a.map)
    (hc : Option.map Skeleton.keyList b.config = Option.map Skeleton.keyList a.config) :
    stepInv a b := by
  refine ⟨hc, fun k hk => by rw [hm]; exact hk, ?_⟩
  intro hs sk hbk k hk
  cases hac : a.config with
  | none => rw [hbk, hac] at hc; exact Option.noConfusion hc
  | some sk0 =>
    rw [hbk, hac] at hc
    have hkl : sk.keyList = sk0.keyList := by
      injection hc with hc
    have h1 : (assocGet a.map k).isSome = true := by rw [← hm]; exact hk
    have h2 := hs sk0 hac k h1
    rw [findItem_isSome_congr sk sk0 hkl k]
    exact h2

theorem keySetEq_mapSub {st : ConfigPropertyMap} (h : keySetEq st) : mapSub st :=
  fun sk hc k hk => (h sk hc k).mp hk

theorem keySetEq_of_stepInv {a b : ConfigPropertyMap}
    (ha : keySetEq a) (h : stepInv a b) : keySetEq b := by
  intro sk hbk k
  constructor
  · exact h.2.2 (keySetEq_mapSub ha) sk hbk k
  · intro hfind
    cases hac : a.config with
    | none => exfalso; have h1 := h.1; rw [hbk, hac] at h1; exact Option.noConfusion h1
    | some sk0 =>
      have hkl : sk.keyList = sk0.keyList := by
        have h1 := h.1
        rw [hbk, hac] at h1
        injection h1 with h1
      have hfa : (sk0.findItem k).isSome = true := by
        rw [findItem_isSome_congr sk0 sk hkl.symm k]
        exact hfind
      have hma := (ha sk0 hac k).mpr hfa
      exact h.2.1 k hma

theorem keyList_write (sk : Skeleton) (key : String) (fl : Bool) (v : Nat) :
    (writeItems sk key fl v).keyList = sk.keyList := by
  show (setPropFirst (setWriteFlagsFirst sk.items key fl) key v).map SkelItem.key = _
  rw [setPropFirst_keys, setWriteFlagsFirst_keys]
  rfl

theorem loadStep_stepInv
    (r : ConfigPropertyMap → Act → Option (ConfigPropertyMap × List BridgeEv))
    (Hr : ∀ s a out, r s a = some out → stepInv s out.1)
    (opt : LoadConfigOption) (acc : ConfigPropertyMap × List BridgeEv) (k : String)
    (acc1 : ConfigPropertyMap × List BridgeEv)
    (h : loadStep r opt acc k = some acc1) :
    stepInv acc.1 acc1.1 ∧
    (∀ sk, acc.1.config = some sk → k ∈ sk.keyList →
      (assocGet acc1.1.map k).isSome = true) := by
  unfold loadStep at h
  cases hcf : acc.1.config with
  | none =>
    rw [hcf] at h
    simp only [Option.bind] at h
    injection h with h
    subst h
    exact ⟨stepInv_refl _, fun sk hsk => Option.noConfusion hsk⟩
  | some s0 =>
    rw [hcf] at h
    simp only [Option.bind] at h
    cases hfind : s0.findItem k with
    | none =>
      rw [hfind] at h
      injection h with h
      subst h
      refine ⟨stepInv_refl _, fun sk hsk hmem => ?_⟩
      injection hsk with hsk
      subst hsk
      have := (findItem_isSome_iff s0 k).mpr hmem
      rw [hfind] at this
      exact absurd this (by simp)
    | some it =>
      rw [hfind] at h
      have hkey : it.key = k := findItem_key s0 k it hfind
      have hstep1 : stepInv acc.1 { acc.1 with map := assocSet acc.1.map it.key it.prop } := by
        refine ⟨rfl, fun k' hk' => isSome_assocGet_assocSet _ _ _ _ hk', ?_⟩
        intro hs sk hsk k' hk'
        have hsk' : acc.1.config = some sk := hsk
        rcases of_isSome_assocGet_assocSet _ _ _ _ hk' with h1 | h1
        · subst h1
          rw [hcf] at hsk'
          injection hsk' with hsk'
          subst hsk'
          rw [hkey, hfind]
          rfl
        · exact hs sk hsk' k' h1
      have hins : (assocGet (assocSet acc.1.map it.key it.prop) k).isSome = true := by
        rw [hkey]
        rw [assocGet_assocSet_self]
        rfl
      cases opt with
      | DontEmitValueChanged =>
        injection h with h
        subst h
        exact ⟨hstep1, fun sk _ _ => hins⟩
      | EmitValueChanged =>
        have h2 : Option.map
            (fun rr => (rr.1, acc.2 ++ BridgeEv.valueChanged it.key it.prop :: rr.2))
            (r { config := acc.1.config, map := assocSet acc.1.map it.key it.prop,
                 updatingConfigValue := acc.1.updatingConfigValue,
                 autosave := acc.1.autosave, notify := acc.1.notify }
               (Act.writeValue it.key it.prop)) = some acc1 := h
        cases hr : r
            { config := acc.1.config, map := assocSet acc.1.map it.key it.prop,
              updatingConfigValue := acc.1.updatingConfigValue,
              autosave := acc.1.autosave, notify := acc.1.notify }
            (Act.writeValue it.key it.prop) with
        | none => rw [hr] at h2; exact Option.noConfusion h2
        | some rr =>
          rw [hr] at h2
          injection h2 with h2
          subst h2
          have hstep2 := Hr _ _ _ hr
          exact ⟨stepInv_trans hstep1 hstep2, fun sk _ _ => hstep2.2.1 k hins⟩

theorem foldlM_loadStep_stepInv (opt : LoadConfigOption)
    (r : ConfigPropertyMap → Act → Option (ConfigPropertyMap × List BridgeEv))
    (Hr : ∀ s a out, r s a = some out → stepInv s out.1) :
    ∀ (keys : List String) (acc out : ConfigPropertyMap × List BridgeEv),
      List.foldlM (loadStep r opt) acc keys = some out →
      stepInv acc.1 out.1 ∧
      (∀ sk, acc.1.config = some sk → ∀ k, k ∈ keys → k ∈ sk.keyList →
        (assocGet out.1.map k).isSome = true) := by
  intro keys
  induction keys with
  | nil =>
    intro acc out h
    rw [List.foldlM_nil] at h
    injection h with h
    subst h
    exact ⟨stepInv_refl _, fun sk _ k hk _ => absurd hk (List.not_mem_nil k)⟩
  | cons k ks ih =>
    intro acc out h
    rw [List.foldlM_cons] at h
    cases hstep : loadStep r opt acc k with
    | none => rw [hstep] at h; exact Option.noConfusion h
    | some acc1 =>
      rw [hstep] at h
      have h' : List.foldlM (loadStep r opt) acc1 ks = some out := h
      obtain ⟨hs1, hins1⟩ := loadStep_stepInv r Hr opt acc k acc1 hstep
      obtain ⟨hs2, hcomp2⟩ := ih acc1 out h'
      refine ⟨stepInv_trans hs1 hs2, ?_⟩
      intro sk hsk k' hk' hmem
      rcases List.mem_cons.mp hk' with rfl | hmemks
      · exact hs2.2.1 k' (hins1 sk hsk hmem)
      · cases hc1 : acc1.1.config with
        | none =>
          exfalso
          have h1 := hs1.1
          rw [hc1, hsk] at h1
          exact Option.noConfusion h1
        | some sk1 =>
          have hkl : sk1.keyList = sk.keyList := by
            have h1 := hs1.1
            rw [hc1, hsk] at h1
            injection h1 with h1
          exact hcomp2 sk1 hc1 k' hmemks (hkl ▸ hmem)

theorem run_stepInv :
    ∀ (fuel : Nat) (st : ConfigPropertyMap) (act : Act)
      (out : ConfigPropertyMap × List BridgeEv),
      run fuel st act = some out → stepInv st out.1 := by
  intro fuel
  induction fuel with
  | zero => intro st act out h; exact Option.noConfusion h
  | succ fuel ih =>
    intro st act out h
    cases act with
    | configChanged =>
      rw [run] at h
      cases hg : st.updatingConfigValue with
      | true =>
        rw [hg] at h
        rw [if_pos rfl] at h
        injection h with h
        subst h
        exact stepInv_refl st
      | false =>
        rw [hg] at h
        rw [if_neg (by simp)] at h
        exact ih _ _ _ h
    | loadConfig opt =>
      rw [run] at h
      cases hc : st.config with
      | none =>
        rw [hc] at h
        injection h with h
        subst h
        exact stepInv_refl st
      | some sk =>
        rw [hc] at h
        have h2 : List.foldlM (loadStep (fun st' a => run fuel st' a) opt) (st, [])
            (sk.items.map SkelItem.key) = some out := h
        exact (foldlM_loadStep_stepInv opt _ (fun s a o hh => ih s a o hh) _ _ _ h2).1
    | writeValue key value =>
      rw [run] at h
      cases hc : st.config with
      | none => rw [hc] at h; exact Option.noConfusion h
      | some sk =>
        rw [hc] at h
        have h1 : (((match sk.findItem key with
            | none => some (st, [])
            | some _ =>
              if st.autosave = true then
                (run fuel
                  { config := some (Skeleton.save (writeItems sk key st.notify value)).1,
                    map := st.map, updatingConfigValue := true,
                    autosave := st.autosave, notify := st.notify } Act.configChanged).bind
                  (fun rr =>
                    match rr.1.config with
                    | none => none
                    | some sk2 =>
                      some ({ rr.1 with config := some sk2.read, updatingConfigValue := false },
                        (Skeleton.save (writeItems sk key st.notify value)).2.map
                          BridgeEv.entryWritten ++ rr.2))
              else
                some ({ config := some (writeItems sk key st.notify value),
                        map := st.map, updatingConfigValue := false,
                        autosave := st.autosave, notify := st.notify }, []))
              : Option (ConfigPropertyMap × List BridgeEv)) = some out) := h
        cases hf : sk.findItem key with
        | none =>
          rw [hf] at h1
          injection h1 with h1
          subst h1
          exact stepInv_refl st
        | some it0 =>
          rw [hf] at h1
          cases ha : st.autosave with
          | false =>
            rw [ha] at h1
            rw [if_neg (by simp)] at h1
            injection h1 with h1
            subst h1
            refine stepInv_of_same rfl ?_
            rw [hc]
            exact congrArg some (keyList_write sk key st.notify value)
          | true =>
            rw [ha] at h1
            rw [if_pos rfl] at h1
            cases hr : run fuel
                { config := some (Skeleton.save (writeItems sk key st.notify value)).1,
                  map := st.map, updatingConfigValue := true,
                  autosave := true, notify := st.notify } Act.configChanged with
            | none => rw [hr] at h1; exact Option.noConfusion h1
            | some rr =>
              rw [hr] at h1
              have h3 : (((match rr.1.config with
                  | none => none
                  | some sk2 =>
                    some ({ rr.1 with config := some sk2.read, updatingConfigValue := false },
                      (Skeleton.save (writeItems sk key st.notify value)).2.map
                        BridgeEv.entryWritten ++ rr.2))
                  : Option (ConfigPropertyMap × List BridgeEv)) = some out) := h1
              cases hrc : rr.1.config with
              | none => rw [hrc] at h3; exact Option.noConfusion h3
              | some sk2 =>
                rw [hrc] at h3
                injection h3 with h3
                subst h3
                have e1 : (Skeleton.save (writeItems sk key st.notify value)).1.keyList =
                    (writeItems sk key st.notify value).keyList := rfl
                have s1 : stepInv st
                    { config := some (Skeleton.save (writeItems sk key st.notify value)).1,
                      map := st.map, updatingConfigValue := true,
                      autosave := true, notify := st.notify } := by
                  refine stepInv_of_same rfl ?_
                  rw [hc]
                  exact congrArg some (e1.trans (keyList_write sk key st.notify value))
                have s2 := ih _ _ _ hr
                have s3 : stepInv rr.1
                    { rr.1 with config := some sk2.read, updatingConfigValue := false } := by
                  refine stepInv_of_same rfl ?_
                  rw [hrc]
                  exact congrArg some (read_keyList sk2)
                exact stepInv_trans (stepInv_trans s1 s2) s3

theorem keyList_wcItems (st : ConfigPropertyMap) (sk : Skeleton) :
    (wcItems st sk).keyList = sk.keyList := by
  simp [wcItems, Skeleton.keyList, List.map_map, Function.comp]

theorem loadConfig_keySetEq (fuel : Nat) (st : ConfigPropertyMap) (sk : Skeleton)
    (opt : LoadConfigOption) (out : ConfigPropertyMap × List BridgeEv)
    (hc : st.config = some sk) (hsub : mapSub st)
    (h : run (fuel + 1) st (Act.loadConfig opt) = some out) :
    keySetEq out.1 := by
  rw [run] at h
  rw [hc] at h
  have h2 : List.foldlM (loadStep (fun st' a => run fuel st' a) opt) (st, [])
      (sk.items.map SkelItem.key) = some out := h
  obtain ⟨hstep, hcomp⟩ :=
    foldlM_loadStep_stepInv opt _ (fun s a o hh => run_stepInv fuel s a o hh) _ _ _ h2
  intro sk' hc' k
  have hkl : sk'.keyList = sk.keyList := by
    have h1 := hstep.1
    rw [hc', hc] at h1
    injection h1 with h1
  constructor
  · exact hstep.2.2 hsub sk' hc' k
  · intro hfind
    have hmem : k ∈ sk.keyList := by
      rw [← hkl]
      exact (findItem_isSome_iff sk' k).mp hfind
    exact hcomp sk hc k hmem hmem

/-! ## Claim theorems: the key-set invariant -/

/-- C6: after the construction-time load the property map's key set equals
the configuration's item key set, and the equality is preserved by every
operation of the bridge: every dispatched entry point (`loadConfig` with
either option — so in particular every externally triggered reload —, the
`valueChanged` slot, the `configChanged` handler) and the destructor's
`writeConfig`.  (`isImmutable` does not change the state at all.) -/
theorem keySet_invariant :
    (∀ (sk : Skeleton) (fuel : Nat) (out : ConfigPropertyMap × List BridgeEv),
        construct (fuel + 1) (some sk) = some out → keySetEq out.1) ∧
    (∀ (fuel : Nat) (st : ConfigPropertyMap) (act : Act)
        (out : ConfigPropertyMap × List BridgeEv),
        keySetEq st → run fuel st act = some out → keySetEq out.1) ∧
    (∀ (fuel : Nat) (st : ConfigPropertyMap) (out : ConfigPropertyMap × List BridgeEv),
        keySetEq st → writeConfigOp fuel st = some out → keySetEq out.1) := by
  refine ⟨?_, ?_, ?_⟩
  · intro sk fuel out h
    refine loadConfig_keySetEq fuel _ sk _ out rfl ?_ h
    intro sk0 hc0 k hk
    exact absurd hk (by simp [assocGet])
  · intro fuel st act out heq h
    exact keySetEq_of_stepInv heq (run_stepInv fuel st act out h)
  · intro fuel st out heq h
    unfold writeConfigOp at h
    cases hc : st.config with
    | none =>
      rw [hc] at h
      injection h with h
      subst h
      exact heq
    | some sk =>
      rw [hc] at h
      have h1 : ((if st.autosave = true then
          (run fuel
            { config := some (Skeleton.save (wcItems st sk)).1, map := st.map,
              updatingConfigValue := true, autosave := st.autosave,
              notify := st.notify } Act.configChanged).map
            (fun r => ({ r.1 with updatingConfigValue := false },
              (Skeleton.save (wcItems st sk)).2.map BridgeEv.entryWritten ++ r.2))
        else
          some ({ config := some (wcItems st sk), map := st.map,
                  updatingConfigValue := st.updatingConfigValue,
                  autosave := st.autosave, notify := st.notify }, []))
          = some out) := h
      have e1 : (Skeleton.save (wcItems st sk)).1.keyList = (wcItems st sk).keyList := rfl
      cases ha : st.autosave with
      | false =>
        rw [ha] at h1
        rw [if_neg (by simp)] at h1
        injection h1 with h1
        subst h1
        refine keySetEq_of_stepInv heq (stepInv_of_same rfl ?_)
        rw [hc]
        exact congrArg some (keyList_wcItems st sk)
      | true =>
        rw [ha] at h1
        rw [if_pos rfl] at h1
        cases hr : run fuel
            { config := some (Skeleton.save (wcItems st sk)).1, map := st.map,
              updatingConfigValue := true, autosave := true,
              notify := st.notify } Act.configChanged with
        | none => rw [hr] at h1; exact Option.noConfusion h1
        | some rr =>
          rw [hr] at h1
          injection h1 with h1
          subst h1
          have s1 : stepInv st
              { config := some (Skeleton.save (wcItems st sk)).1, map := st.map,
                updatingConfigValue := true, autosave := true,
                notify := st.notify } := by
            refine stepInv_of_same rfl ?_
            rw [hc]
            exact congrArg some (e1.trans (keyList_wcItems st sk))
          have s2 := run_stepInv fuel _ _ _ hr
          have s3 : stepInv rr.1 { rr.1 with updatingConfigValue := false } :=
            stepInv_of_same rfl rfl
          exact keySetEq_of_stepInv heq (stepInv_trans (stepInv_trans s1 s2) s3)

/-- Witness for C6: the initial load on `sampleSkel` yields `sampleState`,
whose key set matches the skeleton's. -/
theorem keySet_invariant_witness :
    construct 1 (some sampleSkel) = some (sampleState, []) ∧ keySetEq sampleState :=
  ⟨by decide, keySet_invariant.1 sampleSkel 0 (sampleState, []) (by decide)⟩

/-! ## Claim theorems: absent configuration object (C9) -/

/-- C9 counterexample: with the configuration object gone (null `QPointer`),
the per-key write-back (`writeConfigValue`) and the immutability query both
dereference the null configuration — modelled as `none`, i.e. no safe no-op
result exists for them, contradicting the claim that every operation is a
safe no-op. -/
theorem nullConfig_crash :
    run 5 nullConfigState (Act.writeValue "alpha" 3) = none ∧
    ConfigPropertyMap.isImmutable nullConfigState "alpha" = none :=
  ⟨rfl, rfl⟩

/-- C9 amended: with the configuration object absent, the load (`loadConfig`)
and save (`writeConfig`) paths — which do check for null — are safe no-ops
(state unchanged, nothing emitted), and the `configChanged` handler is safe;
but the per-key write-back and the immutability query dereference the absent
configuration object instead of being no-ops. -/
theorem nullConfig_behavior (st : ConfigPropertyMap) (fuel : Nat)
    (opt : LoadConfigOption) (key : String) (value : Nat)
    (hc : st.config = none) :
    run (fuel + 1) st (Act.loadConfig opt) = some (st, []) ∧
    writeConfigOp fuel st = some (st, []) ∧
    run (fuel + 2) st Act.configChanged = some (st, []) ∧
    run fuel st (Act.writeValue key value) = none ∧
    st.isImmutable key = none := by
  have hload : ∀ f o, run (f + 1) st (Act.loadConfig o) = some (st, []) := by
    intro f o
    rw [run, hc]
  refine ⟨hload fuel opt, ?_, ?_, ?_, ?_⟩
  · unfold writeConfigOp
    rw [hc]
  · rw [run]
    cases hg : st.updatingConfigValue with
    | true => rw [if_pos rfl]
    | false =>
      rw [if_neg (by simp)]
      exact hload fuel .EmitValueChanged
  · cases fuel with
    | zero => rfl
    | succ f => rw [run, hc]
  · unfold ConfigPropertyMap.isImmutable
    rw [hc]

/-- Witness for the amended C9 on the concrete `nullConfigState`. -/
theorem nullConfig_behavior_witness :
    run 1 nullConfigState (Act.loadConfig .EmitValueChanged) = some (nullConfigState, []) ∧
    writeConfigOp 0 nullConfigState = some (nullConfigState, []) ∧
    run 2 nullConfigState Act.configChanged = some (nullConfigState, []) ∧
    run 0 nullConfigState (Act.writeValue "k" 7) = none ∧
    nullConfigState.isImmutable "k" = none :=
  nullConfig_behavior nullConfigState 0 .EmitValueChanged "k" 7 rfl

/-! ## Supporting lemmas: save / read round-trips (for C2) -/

theorem mem_setWriteFlagsFirst (k : String) (fl : Bool) :
    ∀ (l : List SkelItem) (it' : SkelItem), it' ∈ setWriteFlagsFirst l k fl →
      ∃ it0 ∈ l, it'.key = it0.key ∧ it'.prop = it0.prop ∧
        it'.loadedValue = it0.loadedValue := by
  intro l
  induction l with
  | nil => intro it' h; exact absurd h (List.not_mem_nil it')
  | cons x xs ih =>
    intro it' h
    by_cases hx : x.key = k
    · rw [setWriteFlagsFirst, if_pos hx] at h
      rcases List.mem_cons.mp h with rfl | hmem
      · exact ⟨x, List.mem_cons_self x xs, rfl, rfl, rfl⟩
      · exact ⟨it', List.mem_cons_of_mem x hmem, rfl, rfl, rfl⟩
    · rw [setWriteFlagsFirst, if_neg hx] at h
      rcases List.mem_cons.mp h with rfl | hmem
      · exact ⟨_, List.mem_cons_self _ _, rfl, rfl, rfl⟩
      · obtain ⟨it0, hm0, h1, h2, h3⟩ := ih it' hmem
        exact ⟨it0, List.mem_cons_of_mem x hm0, h1, h2, h3⟩

theorem find?_setWriteFlagsFirst (k : String) (fl : Bool) :
    ∀ (l : List SkelItem) (it : SkelItem),
      l.find? (fun x => x.key = k) = some it →
      (setWriteFlagsFirst l k fl).find? (fun x => x.key = k) =
        some { it with notifyFlag := fl } := by
  intro l
  induction l with
  | nil => intro it h; exact Option.noConfusion h
  | cons x xs ih =>
    intro it h
    by_cases hx : x.key = k
    · rw [List.find?_cons_of_pos _ (by simp [hx])] at h
      injection h with h
      subst h
      rw [setWriteFlagsFirst, if_pos hx]
      exact List.find?_cons_of_pos _ (by simp [hx])
    · rw [List.find?_cons_of_neg _ (by simp [hx])] at h
      rw [setWriteFlagsFirst, if_neg hx]
      rw [List.find?_cons_of_neg _ (by simp [hx])]
      exact ih it h

theorem find?_setPropFirst (k : String) (v : Nat) :
    ∀ (l : List SkelItem) (it : SkelItem),
      l.find? (fun x => x.key = k) = some it →
      (setPropFirst l k v).find? (fun x => x.key = k) = some { it with prop := v } := by
  intro l
  induction l with
  | nil => intro it h; exact Option.noConfusion h
  | cons x xs ih =>
    intro it h
    by_cases hx : x.key = k
    · rw [List.find?_cons_of_pos _ (by simp [hx])] at h
      injection h with h
      subst h
      rw [setPropFirst, if_pos hx]
      exact List.find?_cons_of_pos _ (by simp [hx])
    · rw [List.find?_cons_of_neg _ (by simp [hx])] at h
      rw [setPropFirst, if_neg hx]
      rw [List.find?_cons_of_neg _ (by simp [hx])]
      exact ih it h

theorem setPropFirst_found (k : String) :
    ∀ (l : List SkelItem) (it : SkelItem),
      l.find? (fun x => x.key = k) = some it →
      setPropFirst l k it.prop = l := by
  intro l
  induction l with
  | nil => intro it _; rfl
  | cons x xs ih =>
    intro it h
    by_cases hx : x.key = k
    · rw [List.find?_cons_of_pos _ (by simp [hx])] at h
      injection h with h
      subst h
      rw [setPropFirst, if_pos hx]
    · rw [List.find?_cons_of_neg _ (by simp [hx])] at h
      rw [setPropFirst, if_neg hx]
      rw [ih it h]

theorem saveItems_clean :
    ∀ (l : List SkelItem) (store : List (String × Nat)),
      (∀ it ∈ l, it.prop = it.loadedValue) →
      saveItems l store = (store, []) := by
  intro l
  induction l with
  | nil => intro store _; rfl
  | cons x xs ih =>
    intro store h
    have hx : x.prop = x.loadedValue := h x (List.mem_cons_self x xs)
    rw [saveItems, if_neg (by simp [hx])]
    exact ih store (fun it hm => h it (List.mem_cons_of_mem x hm))

theorem save_clean (sk : Skeleton) (h : ∀ it ∈ sk.items, it.prop = it.loadedValue) :
    Skeleton.save sk = (sk, []) := by
  unfold Skeleton.save
  rw [saveItems_clean sk.items sk.stored h]

theorem read_synced_id (sk : Skeleton) (h : Synced sk) : Skeleton.read sk = sk := by
  unfold Skeleton.read
  have hmap : sk.items.map (readItem sk.stored) = sk.items := by
    have hcongr : ∀ it ∈ sk.items, readItem sk.stored it = id it := by
      intro it hm
      obtain ⟨h1, h2⟩ := h it hm
      simp [readItem, h2, id]
      nth_rewrite 2 [h1]
      rfl
    rw [List.map_congr_left hcongr, List.map_id]
  rw [hmap]

theorem synced_setWriteFlags (sk : Skeleton) (k : String) (fl : Bool) (h : Synced sk) :
    Synced { sk with items := setWriteFlagsFirst sk.items k fl } := by
  intro it' hmem
  obtain ⟨it0, hm0, h1, h2, h3⟩ := mem_setWriteFlagsFirst k fl sk.items it' hmem
  obtain ⟨g1, g2⟩ := h it0 hm0
  refine ⟨by rw [h2, h3]; exact g1, ?_⟩
  show assocGet sk.stored it'.key = some it'.prop
  rw [h1, h2]
  exact g2

theorem saveItems_presence (k : String) :
    ∀ (l : List SkelItem) (store : List (String × Nat)),
      (assocGet store k).isSome = true →
      (assocGet (saveItems l store).1 k).isSome = true := by
  intro l
  induction l with
  | nil => intro store h; exact h
  | cons x xs ih =>
    intro store h
    by_cases hx : x.prop = x.loadedValue
    · rw [saveItems, if_neg (by simp [hx])]
      exact ih store h
    · rw [saveItems, if_pos (by simp [hx])]
      exact ih _ (isSome_assocGet_assocSet _ _ _ _ h)

theorem saveItems_notmem (k : String) :
    ∀ (l : List SkelItem) (store : List (String × Nat)),
      k ∉ l.map SkelItem.key →
      assocGet (saveItems l store).1 k = assocGet store k := by
  intro l
  induction l with
  | nil => intro store _; rfl
  | cons x xs ih =>
    intro store hk
    have hne : x.key ≠ k := fun h => hk (h ▸ List.mem_cons_self x.key _)
    have hks : k ∉ xs.map SkelItem.key := fun h => hk (List.mem_cons_of_mem _ h)
    by_cases hx : x.prop = x.loadedValue
    · rw [saveItems, if_neg (by simp [hx])]
      exact ih store hks
    · rw [saveItems, if_pos (by simp [hx])]
      rw [ih _ hks]
      exact assocGet_assocSet_ne store x.key k x.prop (Ne.symm hne)

theorem saveItems_found (k : String) :
    ∀ (l : List SkelItem) (store : List (String × Nat)) (j : SkelItem),
      (l.map SkelItem.key).Nodup →
      l.find? (fun x => x.key = k) = some j →
      assocGet (saveItems l store).1 k =
        (if j.prop = j.loadedValue then assocGet store k else some j.prop) := by
  intro l
  induction l with
  | nil => intro store j _ h; exact Option.noConfusion h
  | cons x xs ih =>
    intro store j hnd h
    by_cases hx : x.key = k
    · rw [List.find?_cons_of_pos _ (by simp [hx])] at h
      injection h with h
      subst h
      have hknot : k ∉ xs.map SkelItem.key := by
        have := (List.nodup_cons.mp hnd).1
        rw [hx] at this
        exact this
      by_cases hj : x.prop = x.loadedValue
      · rw [saveItems, if_neg (by simp [hj]), if_pos hj]
        exact saveItems_notmem k xs store hknot
      · rw [saveItems, if_pos (by simp [hj]), if_neg hj]
        rw [saveItems_notmem k xs _ hknot]
        rw [hx]
        exact assocGet_assocSet_self store k x.prop
    · rw [List.find?_cons_of_neg _ (by simp [hx])] at h
      have hnd' := (List.nodup_cons.mp hnd).2
      by_cases hxc : x.prop = x.loadedValue
      · rw [saveItems, if_neg (by simp [hxc])]
        exact ih store j hnd' h
      · rw [saveItems, if_pos (by simp [hxc])]
        rw [ih _ j hnd' h]
        by_cases hj : j.prop = j.loadedValue
        · rw [if_pos hj, if_pos hj]
          exact assocGet_assocSet_ne store x.key k x.prop (Ne.symm hx)
        · rw [if_neg hj, if_neg hj]

theorem synced_read_of_presence (sk : Skeleton)
    (h : ∀ it ∈ sk.items, (assocGet sk.stored it.key).isSome = true) :
    Synced (Skeleton.read sk) := by
  intro it' hmem
  rw [Skeleton.read] at hmem
  obtain ⟨it0, hm0, rfl⟩ := List.mem_map.mp hmem
  obtain ⟨w, hw⟩ := Option.isSome_iff_exists.mp (h it0 hm0)
  constructor
  · simp [readItem]
  · show assocGet (Skeleton.read sk).stored (readItem sk.stored it0).key = _
    rw [read_stored]
    simp [readItem, hw]

theorem findItem_read (sk : Skeleton) (k : String) :
    (Skeleton.read sk).findItem k = (sk.findItem k).map (readItem sk.stored) := by
  unfold Skeleton.findItem Skeleton.read
  show (sk.items.map (readItem sk.stored)).find? (fun it => it.key = k) = _
  rw [List.find?_map]
  have hpred : ((fun (it : SkelItem) => decide (it.key = k)) ∘ readItem sk.stored) =
      fun it => decide (it.key = k) := by
    funext it
    simp [readItem, Function.comp]
  rw [hpred]

theorem run_writeValue_autosave (fuel : Nat) (st : ConfigPropertyMap) (sk : Skeleton)
    (key : String) (v : Nat) (it : SkelItem)
    (hc : st.config = some sk) (hf : sk.findItem key = some it) (ha : st.autosave = true) :
    run (fuel + 2) st (Act.writeValue key v) =
      some ({ st with
              config := some (Skeleton.read (Skeleton.save (writeItems sk key st.notify v)).1),
              updatingConfigValue := false },
            (Skeleton.save (writeItems sk key st.notify v)).2.map BridgeEv.entryWritten) := by
  rw [run]
  rw [hc]
  show (((match sk.findItem key with
      | none => some (st, [])
      | some _ =>
        if st.autosave = true then
          (run (fuel + 1)
            { config := some (Skeleton.save (writeItems sk key st.notify v)).1,
              map := st.map, updatingConfigValue := true,
              autosave := st.autosave, notify := st.notify } Act.configChanged).bind
            (fun rr =>
              match rr.1.config with
              | none => none
              | some sk2 =>
                some ({ rr.1 with config := some sk2.read, updatingConfigValue := false },
                  (Skeleton.save (writeItems sk key st.notify v)).2.map
                    BridgeEv.entryWritten ++ rr.2))
        else
          some ({ config := some (writeItems sk key st.notify v),
                  map := st.map, updatingConfigValue := false,
                  autosave := st.autosave, notify := st.notify }, []))
      : Option (ConfigPropertyMap × List BridgeEv)) = _)
  rw [hf, ha]
  show (some (({ config := some (Skeleton.read (Skeleton.save (writeItems sk key st.notify v)).1),
                 map := st.map, updatingConfigValue := false, autosave := true,
                 notify := st.notify } : ConfigPropertyMap),
              (Skeleton.save (writeItems sk key st.notify v)).2.map BridgeEv.entryWritten ++ [])
        : Option (ConfigPropertyMap × List BridgeEv)) = _
  rw [List.append_nil]

theorem run_writeValue_synced (fuel : Nat) (st : ConfigPropertyMap) (sk : Skeleton)
    (key : String) (it : SkelItem)
    (hc : st.config = some sk) (ha : st.autosave = true)
    (hf : sk.findItem key = some it) (hsync : Synced sk) :
    run (fuel + 2) st (Act.writeValue key it.prop) =
      some ({ st with
              config := some { sk with items := setWriteFlagsFirst sk.items key st.notify },
              updatingConfigValue := false }, []) := by
  have hflag : (setWriteFlagsFirst sk.items key st.notify).find? (fun x => x.key = key) =
      some { it with notifyFlag := st.notify } :=
    find?_setWriteFlagsFirst key st.notify sk.items it hf
  have hcollapse : writeItems sk key st.notify it.prop =
      { sk with items := setWriteFlagsFirst sk.items key st.notify } := by
    unfold writeItems
    have h1 := setPropFirst_found key (setWriteFlagsFirst sk.items key st.notify)
      { it with notifyFlag := st.notify } hflag
    have h2 : setPropFirst (setWriteFlagsFirst sk.items key st.notify) key it.prop =
        setWriteFlagsFirst sk.items key st.notify := h1
    rw [h2]
  have hsyncF : Synced { sk with items := setWriteFlagsFirst sk.items key st.notify } :=
    synced_setWriteFlags sk key st.notify hsync
  have hsave : Skeleton.save { sk with items := setWriteFlagsFirst sk.items key st.notify } =
      ({ sk with items := setWriteFlagsFirst sk.items key st.notify }, []) :=
    save_clean _ (fun i hm => (hsyncF i hm).1)
  rw [run_writeValue_autosave fuel st sk key it.prop it hc hf ha]
  rw [hcollapse, hsave]
  show some ({ st with
              config := some (Skeleton.read
                { sk with items := setWriteFlagsFirst sk.items key st.notify }),
              updatingConfigValue := false },
            ([] : List String).map BridgeEv.entryWritten) = _
  rw [read_synced_id _ hsyncF]
  rfl

theorem foldlM_loadStep_synced (fuel : Nat) :
    ∀ (keys : List String) (acc : ConfigPropertyMap × List BridgeEv) (sk : Skeleton),
      acc.1.config = some sk → Synced sk → acc.1.autosave = true →
      (∀ e ∈ acc.2, isEntryWritten e = false) →
      ∃ out,
        List.foldlM (loadStep (fun s a => run (fuel + 2) s a) .EmitValueChanged) acc keys =
          some out ∧
        (∀ e ∈ out.2, isEntryWritten e = false) := by
  intro keys
  induction keys with
  | nil =>
    intro acc sk hc hsync hauto hevs
    refine ⟨acc, ?_, hevs⟩
    rw [List.foldlM_nil]
    rfl
  | cons k ks ih =>
    intro acc sk hc hsync hauto hevs
    cases hfind : sk.findItem k with
    | none =>
      have hstep : loadStep (fun s a => run (fuel + 2) s a) .EmitValueChanged acc k =
          some acc := by
        unfold loadStep
        rw [hc]
        show (((match sk.findItem k with
            | none => some acc
            | some it =>
              (run (fuel + 2) { acc.1 with map := assocSet acc.1.map it.key it.prop }
                  (Act.writeValue it.key it.prop)).map
                (fun r => (r.1, acc.2 ++ BridgeEv.valueChanged it.key it.prop :: r.2)))
            : Option (ConfigPropertyMap × List BridgeEv)) = some acc)
        rw [hfind]
      obtain ⟨out, hout, hevs'⟩ := ih acc sk hc hsync hauto hevs
      refine ⟨out, ?_, hevs'⟩
      rw [List.foldlM_cons, hstep]
      exact hout
    | some it =>
      have hkey : it.key = k := findItem_key sk k it hfind
      have hf' : sk.findItem it.key = some it := by rw [hkey]; exact hfind
      have hrun := run_writeValue_synced fuel
        { acc.1 with map := assocSet acc.1.map it.key it.prop } sk it.key it
        hc hauto hf' hsync
      have hstep : loadStep (fun s a => run (fuel + 2) s a) .EmitValueChanged acc k =
          some ({ config := some { sk with items := setWriteFlagsFirst sk.items it.key acc.1.notify },
                  map := assocSet acc.1.map it.key it.prop,
                  updatingConfigValue := false, autosave := acc.1.autosave,
                  notify := acc.1.notify },
                acc.2 ++ [BridgeEv.valueChanged it.key it.prop]) := by
        unfold loadStep
        rw [hc]
        show (((match sk.findItem k with
            | none => some acc
            | some it =>
              (run (fuel + 2) { acc.1 with map := assocSet acc.1.map it.key it.prop }
                  (Act.writeValue it.key it.prop)).map
                (fun r => (r.1, acc.2 ++ BridgeEv.valueChanged it.key it.prop :: r.2)))
            : Option (ConfigPropertyMap × List BridgeEv)) = _)
        rw [hfind]
        show Option.map (fun r => (r.1, acc.2 ++ BridgeEv.valueChanged it.key it.prop :: r.2))
            (run (fuel + 2) { acc.1 with map := assocSet acc.1.map it.key it.prop }
              (Act.writeValue it.key it.prop)) = _
        rw [hrun]
        rfl
      have hsyncF : Synced { sk with items := setWriteFlagsFirst sk.items it.key acc.1.notify } :=
        synced_setWriteFlags sk it.key acc.1.notify hsync
      have hevs2 : ∀ e ∈ acc.2 ++ [BridgeEv.valueChanged it.key it.prop],
          isEntryWritten e = false := by
        intro e he
        rcases List.mem_append.mp he with h1 | h1
        · exact hevs e h1
        · rcases List.mem_singleton.mp h1 with rfl
          rfl
      obtain ⟨out, hout, hevs'⟩ := ih
        ({ config := some { sk with items := setWriteFlagsFirst sk.items it.key acc.1.notify },
           map := assocSet acc.1.map it.key it.prop,
           updatingConfigValue := false, autosave := acc.1.autosave,
           notify := acc.1.notify },
         acc.2 ++ [BridgeEv.valueChanged it.key it.prop])
        { sk with items := setWriteFlagsFirst sk.items it.key acc.1.notify }
        rfl hsyncF hauto hevs2
      refine ⟨out, ?_, hevs'⟩
      rw [List.foldlM_cons, hstep]
      exact hout

theorem configChanged_synced_no_writes (fuel : Nat) (st : ConfigPropertyMap) (sk : Skeleton)
    (hc : st.config = some sk) (hg : st.updatingConfigValue = false)
    (ha : st.autosave = true) (hsync : Synced sk) :
    ∃ out, run (fuel + 4) st Act.configChanged = some out ∧
      ∀ e ∈ out.2, isEntryWritten e = false := by
  obtain ⟨out, hfold, hevs⟩ := foldlM_loadStep_synced fuel (sk.items.map SkelItem.key)
    (st, []) sk hc hsync ha (by intro e he; exact absurd he (List.not_mem_nil e))
  refine ⟨out, ?_, hevs⟩
  show run (fuel + 3 + 1) st Act.configChanged = some out
  rw [run]
  rw [hg]
  rw [if_neg (by simp)]
  show run (fuel + 2 + 1) st (Act.loadConfig .EmitValueChanged) = some out
  rw [run]
  rw [hc]
  exact hfold

/-- C2: writing a value through the map for a key naming an existing item
updates that item; with autosave on it is persisted immediately (the store
holds the value) and the configuration is re-read so the loaded baseline
equals the new value.  The `configChanged` emitted by the own `save()` is
dispatched while `updatingConfigValue` is true, so no reload happens: the
property map is untouched, the guard is released afterwards, and the
produced events are exactly the persistence-level entry writes (no
`valueChanged`).  A subsequent external reload (`configChanged` with the
guard down) then produces no spurious persistence-level change notification
for the values, which have not changed. -/
theorem writeConfigValue_roundtrip (fuel fuel2 : Nat) (st : ConfigPropertyMap)
    (sk : Skeleton) (key : String) (value : Nat) (it : SkelItem)
    (hc : st.config = some sk) (ha : st.autosave = true)
    (hf : sk.findItem key = some it) (hnd : sk.keyList.Nodup)
    (hbase : BaselineSynced sk) :
    ∃ st' sk',
      run (fuel + 2) st (Act.writeValue key value) =
        some (st',
          (Skeleton.save (writeItems sk key st.notify value)).2.map BridgeEv.entryWritten) ∧
      st'.map = st.map ∧
      st'.updatingConfigValue = false ∧
      st'.config = some sk' ∧
      (∃ it', sk'.findItem key = some it' ∧ it'.prop = value ∧ it'.loadedValue = value) ∧
      assocGet sk'.stored key = some value ∧
      (∃ out2, run (fuel2 + 4) st' Act.configChanged = some out2 ∧
        ∀ e ∈ out2.2, isEntryWritten e = false) := by
  have hkey : it.key = key := findItem_key sk key it hf
  have hfW : (writeItems sk key st.notify value).findItem key =
      some { it with notifyFlag := st.notify, prop := value } := by
    show (setPropFirst (setWriteFlagsFirst sk.items key st.notify) key value).find?
        (fun x => x.key = key) = _
    have h1 := find?_setWriteFlagsFirst key st.notify sk.items it hf
    exact find?_setPropFirst key value _ _ h1
  have hndW : ((writeItems sk key st.notify value).keyList).Nodup := by
    rw [keyList_write]
    exact hnd
  have hsget : assocGet (Skeleton.save (writeItems sk key st.notify value)).1.stored key =
      some value := by
    show assocGet (saveItems (writeItems sk key st.notify value).items sk.stored).1 key =
      some value
    rw [saveItems_found key (writeItems sk key st.notify value).items sk.stored
      { it with notifyFlag := st.notify, prop := value } hndW hfW]
    by_cases hv : value = it.loadedValue
    · rw [if_pos hv]
      have hm : it ∈ sk.items := List.mem_of_find?_eq_some hf
      have hb := hbase it hm
      rw [hkey] at hb
      rw [hb, ← hv]
    · rw [if_neg hv]
  have hpres : ∀ i ∈ (Skeleton.save (writeItems sk key st.notify value)).1.items,
      (assocGet (Skeleton.save (writeItems sk key st.notify value)).1.stored i.key).isSome
        = true := by
    intro i hi
    have hiW : i ∈ (writeItems sk key st.notify value).items := hi
    have hki : i.key ∈ sk.keyList := by
      have h1 : i.key ∈ (writeItems sk key st.notify value).keyList :=
        List.mem_map_of_mem SkelItem.key hiW
      rw [keyList_write] at h1
      exact h1
    obtain ⟨it0, hm0, hkeq⟩ := List.mem_map.mp hki
    have h2 : (assocGet sk.stored i.key).isSome = true := by
      rw [← hkeq]
      rw [hbase it0 hm0]
      rfl
    show (assocGet (saveItems (writeItems sk key st.notify value).items sk.stored).1
      i.key).isSome = true
    exact saveItems_presence i.key _ sk.stored h2
  have hsyncR : Synced (Skeleton.read (Skeleton.save (writeItems sk key st.notify value)).1) :=
    synced_read_of_presence _ hpres
  have hfR : (Skeleton.read (Skeleton.save (writeItems sk key st.notify value)).1).findItem
        key =
      some (readItem (Skeleton.save (writeItems sk key st.notify value)).1.stored
        { it with notifyFlag := st.notify, prop := value }) := by
    rw [findItem_read]
    have hfS : (Skeleton.save (writeItems sk key st.notify value)).1.findItem key =
        some { it with notifyFlag := st.notify, prop := value } := hfW
    rw [hfS]
    rfl
  refine ⟨{ st with
      config := some (Skeleton.read (Skeleton.save (writeItems sk key st.notify value)).1),
      updatingConfigValue := false },
    Skeleton.read (Skeleton.save (writeItems sk key st.notify value)).1,
    run_writeValue_autosave fuel st sk key value it hc hf ha,
    rfl, rfl, rfl, ?_, ?_, ?_⟩
  · refine ⟨readItem (Skeleton.save (writeItems sk key st.notify value)).1.stored
      { it with notifyFlag := st.notify, prop := value }, hfR, ?_, ?_⟩
    · show (assocGet (Skeleton.save (writeItems sk key st.notify value)).1.stored
        it.key).getD it.deflt = value
      rw [hkey, hsget]
      rfl
    · show (assocGet (Skeleton.save (writeItems sk key st.notify value)).1.stored
        it.key).getD it.deflt = value
      rw [hkey, hsget]
      rfl
  · show assocGet (Skeleton.save (writeItems sk key st.notify value)).1.stored key =
      some value
    exact hsget
  · exact configChanged_synced_no_writes fuel2 _ _ rfl rfl ha hsyncR

/-- Witness for C2: writing `5` to `"alpha"` on the concrete `sampleState`. -/
theorem writeConfigValue_roundtrip_witness :
    ∃ st' sk',
      run 2 sampleState (Act.writeValue "alpha" 5) =
        some (st',
          (Skeleton.save (writeItems sampleSkel "alpha" false 5)).2.map BridgeEv.entryWritten) ∧
      st'.map = sampleState.map ∧
      st'.updatingConfigValue = false ∧
      st'.config = some sk' ∧
      (∃ it', sk'.findItem "alpha" = some it' ∧ it'.prop = 5 ∧ it'.loadedValue = 5) ∧
      assocGet sk'.stored "alpha" = some 5 ∧
      (∃ out2, run 4 st' Act.configChanged = some out2 ∧
        ∀ e ∈ out2.2, isEntryWritten e = false) :=
  writeConfigValue_roundtrip 0 0 sampleState sampleSkel "alpha" 5
    ⟨"alpha", 1, 1, 0, false, false⟩ rfl rfl (by decide) (by decide)
    (by unfold BaselineSynced; decide)

end KDeclarativeSpec
